import Mathlib

set_option maxHeartbeats 1600000

namespace EduRag

/-! Shallow embedding of the Edu-Rag system. The repository ships the React
frontend (`frontend/src`), shell scripts and documentation; the Python backend
(`app/`) is referenced by the README and scripts but its sources are not in the
repository, so the backend components (VectorIndex, Chunker, state machine,
Summarizer, IntentClassifier, RetrievalOrchestrator) are modelled from the
specification text, while the frontend (`App.tsx`, `api/client.ts`,
`types/index.ts`) is translated from its TypeScript source. -/

/-- Modelled from the spec: provenance kind of a vector-index entry
(spec section 3, IndexEntry: "provenance kind (passage/topic-summary/unit-summary)"). -/
inductive ProvKind where
  | passage
  | topic_summary
  | unit_summary
deriving DecidableEq, Repr

/-- Modelled from the spec: the two independent VectorIndex instances
("passage index" and "summary index", spec section 2). -/
inductive IndexKind where
  | passageIndex
  | summaryIndex
deriving DecidableEq, Repr

/-- Modelled from the spec: which provenance kinds belong to each index
(passages in the passage index, topic/unit summaries in the summary index). -/
def kindAllowed : IndexKind → ProvKind → Bool
  | .passageIndex, .passage => true
  | .passageIndex, _ => false
  | .summaryIndex, .topic_summary => true
  | .summaryIndex, .unit_summary => true
  | .summaryIndex, .passage => false

/-- Modelled from the spec: an index entry: "a vector + provenance ...
created on embedding; never mutated, only added or tombstoned" (spec section 3),
with the versioned-entry design of spec section 9 (arena of entries plus
live/tombstoned flag). `seq` is the insertion sequence number, used for the
documented most-recent-first tie-break. Vectors are lists of integers
(the embedding dimension and float coordinates are abstracted). -/
structure IndexEntry where
  pid : Nat
  kind : ProvKind
  vec : List Int
  live : Bool
  seq : Nat
deriving DecidableEq, Repr

/-- Modelled from the spec: a VectorIndex instance: an append-only arena of
entries plus the next insertion sequence number (spec sections 4.3 and 9). -/
structure VectorIndex where
  entries : List IndexEntry
  nextSeq : Nat
deriving DecidableEq, Repr

/-- Modelled from the spec: the empty index. -/
def emptyIndex : VectorIndex := { entries := [], nextSeq := 0 }

/-- Modelled from the spec: `add(provenance_id, provenance_kind, vector)`
"appends an entry; if an entry for the same (provenance_id, provenance_kind)
already exists, the old entry is tombstoned (excluded from future search) and
the new one becomes live — upsert semantics" (spec section 4.3). -/
def VectorIndex.add (s : VectorIndex) (pid : Nat) (kind : ProvKind)
    (vec : List Int) : VectorIndex :=
  { entries :=
      (s.entries.map fun e =>
        if e.pid = pid ∧ e.kind = kind then { e with live := false } else e) ++
      [{ pid := pid, kind := kind, vec := vec, live := true, seq := s.nextSeq }],
    nextSeq := s.nextSeq + 1 }

/-- Modelled from the spec: tombstoning the entries of a given provenance
("dangling entries from superseded summaries are tombstoned, not left
searchable", spec section 3). -/
def VectorIndex.tombstone (s : VectorIndex) (pid : Nat) (kind : ProvKind) :
    VectorIndex :=
  { s with
    entries := s.entries.map fun e =>
      if e.pid = pid ∧ e.kind = kind then { e with live := false } else e }

/-- Modelled from the spec: similarity of two vectors, abstracted as the dot
product of integer vectors (the spec treats the embedding space as a black
box and only requires a ranking by "descending similarity"). -/
def dot : List Int → List Int → Int
  | x :: xs, y :: ys => x * y + dot xs ys
  | _, _ => 0

/-- Modelled from the spec: the ranking order of `search`: `rankLE qv a b`
holds when `a` may come no later than `b` in the result list — higher
similarity first, ties broken by most-recent insertion (larger `seq`) first
(spec section 4.3). -/
def rankLE (qv : List Int) (a b : IndexEntry) : Prop :=
  dot qv b.vec < dot qv a.vec ∨
    (dot qv a.vec = dot qv b.vec ∧ b.seq ≤ a.seq)

instance (qv : List Int) : DecidableRel (rankLE qv) := fun a b => by
  unfold rankLE
  infer_instance

instance (qv : List Int) : IsTotal IndexEntry (rankLE qv) where
  total a b := by
    unfold rankLE
    omega

instance (qv : List Int) : IsTrans IndexEntry (rankLE qv) where
  trans a b c hab hbc := by
    unfold rankLE at *
    omega

/-- Modelled from the spec: `search(query_vector, k)` "returns up to `k` live
entries ranked by descending similarity; ties broken by most-recent insertion
order ... Must never return tombstoned entries" (spec section 4.3). -/
def VectorIndex.search (s : VectorIndex) (qv : List Int) (k : Nat) :
    List IndexEntry :=
  (List.insertionSort (rankLE qv) (s.entries.filter fun e => e.live)).take k

/-- Modelled from the spec: the operations that can reach a VectorIndex state:
entries are "never mutated, only added or tombstoned" (spec section 3). -/
inductive IndexOp where
  | add (pid : Nat) (kind : ProvKind) (vec : List Int)
  | tombstone (pid : Nat) (kind : ProvKind)
deriving DecidableEq, Repr

/-- Provenance kind of an index operation. -/
def IndexOp.kind : IndexOp → ProvKind
  | .add _ k _ => k
  | .tombstone _ k => k

/-- Apply one index operation. -/
def applyOp (op : IndexOp) (s : VectorIndex) : VectorIndex :=
  match op with
  | .add pid kind vec => s.add pid kind vec
  | .tombstone pid kind => s.tombstone pid kind

/-- Apply a sequence of index operations, oldest first. -/
def applyOps : List IndexOp → VectorIndex → VectorIndex
  | [], s => s
  | op :: ops, s => applyOps ops (applyOp op s)

/-- Modelled from the spec: chunker configuration
`{min_tokens, max_tokens, overlap_percent}` (spec section 4.2). -/
structure ChunkConfig where
  min_tokens : Nat
  max_tokens : Nat
  overlap_percent : Nat
deriving DecidableEq, Repr

/-- Modelled from the spec: one token of the extracted text; `boundary` records
whether a natural boundary (paragraph or sentence end) occurs right after this
token (spec section 4.2). The token text itself is irrelevant to chunk
boundaries and is abstracted away. -/
structure Token where
  boundary : Bool
deriving DecidableEq, Repr

/-- Modelled from the spec: the scan that closes one chunk: starting from `n`
tokens already taken, consume tokens and "close a chunk once it reaches
`max_tokens` or a natural boundary (paragraph/sentence) occurs at or above
`min_tokens`" (spec section 4.2). -/
def takeChunkAux (cfg : ChunkConfig) : List Token → Nat → List Token
  | [], _ => []
  | t :: ts, n =>
    if cfg.max_tokens ≤ n + 1 then [t]
    else if cfg.min_tokens ≤ n + 1 ∧ t.boundary then [t]
    else t :: takeChunkAux cfg ts (n + 1)

/-- Modelled from the spec: the chunking loop: emit a chunk, then "start the
next chunk `overlap_percent` of the previous chunk's tokens earlier" (spec
section 4.2). A chunk that consumes the whole remaining text is the final
chunk. `fuel` bounds the recursion; with a valid configuration it is never
exhausted when set to the text length. -/
def chunkerAux (cfg : ChunkConfig) : Nat → List Token → List (List Token)
  | 0, _ => []
  | _ + 1, [] => []
  | fuel + 1, t :: rest =>
    if (takeChunkAux cfg (t :: rest) 0).length = rest.length + 1 then
      [takeChunkAux cfg (t :: rest) 0]
    else
      takeChunkAux cfg (t :: rest) 0 ::
        chunkerAux cfg fuel
          (List.drop
            ((takeChunkAux cfg (t :: rest) 0).length -
              (takeChunkAux cfg (t :: rest) 0).length * cfg.overlap_percent / 100)
            (t :: rest))

/-- Modelled from the spec: chunking "Fails with `ChunkingError` only on
invalid configuration (e.g., `min_tokens > max_tokens`)" (spec section 4.2). -/
inductive ChunkError where
  | invalidConfig
deriving DecidableEq, Repr

/-- Modelled from the spec: configuration validity. `min_tokens > max_tokens`
is the spec's named example of an invalid configuration; a zero `max_tokens`
and an overlap of 100 percent or more also admit no well-formed chunking. -/
def validConfig (cfg : ChunkConfig) : Bool :=
  cfg.min_tokens ≤ cfg.max_tokens && 1 ≤ cfg.max_tokens &&
    cfg.overlap_percent < 100

/-- Modelled from the spec: the Chunker: "splits text into token-bounded,
overlapping passages" (spec section 2), failing with `ChunkingError` on an
invalid configuration (spec section 4.2). -/
def chunkText (cfg : ChunkConfig) (ts : List Token) :
    Except ChunkError (List (List Token)) :=
  if validConfig cfg then .ok (chunkerAux cfg ts.length ts)
  else .error .invalidConfig

/-- Modelled from the spec: per-unit processing status
(spec section 4.6; also the frontend `UnitState.status` literal union in
`frontend/src/types/index.ts`). -/
inductive ProcStatus where
  | empty
  | uploaded
  | processing
  | ready
  | failed
deriving DecidableEq, Repr

/-- Modelled from the spec: per-unit ingestion status record (spec section 3,
ProcessingState: "status, has-files, passage-count, embeddings-ready,
last-error"). -/
structure ProcessingState where
  status : ProcStatus
  has_files : Bool
  passage_count : Nat
  embeddings_ready : Bool
  last_error : Option String
deriving DecidableEq, Repr

/-- Modelled from the spec: errors surfaced by the state machine when a
processing run cannot be started (spec sections 4.6 and 7). -/
inductive ProcError where
  | concurrencyConflict
  | invalidState
deriving DecidableEq, Repr

/-- Modelled from the spec: claiming the `uploaded → processing` transition.
"A second attempt to start processing while `processing` is in progress is
rejected with `ConcurrencyConflict`", returned immediately and not retried
internally (spec sections 4.6 and 7). The returned pair is the outcome and
the resulting state; on rejection the state is returned unchanged. -/
def startProcessing (s : ProcessingState) : Option ProcError × ProcessingState :=
  if s.status = .processing then (some .concurrencyConflict, s)
  else if s.status = .uploaded then (none, { s with status := .processing })
  else (some .invalidState, s)

/-- Modelled from the spec: a topic together with its live TopicSummary, if
any ("at most one live version per topic", spec section 3). -/
structure TopicData where
  id : Nat
  summary : Option String
deriving DecidableEq, Repr

/-- Modelled from the spec: a unit's summarization-relevant data: its topics,
its live UnitSummary (if any), and its ProcessingState. -/
structure UnitData where
  topics : List TopicData
  unitSummary : Option String
  procState : ProcessingState
deriving DecidableEq, Repr

/-- Modelled from the spec: `SummarizationError` and the precondition failure
of unit summarization (spec sections 4.4 and 8). -/
inductive SummError where
  | precondition
deriving DecidableEq, Repr

/-- Modelled from the spec: the unit stage of the Summarizer: "A UnitSummary
may be generated only when every Topic in the unit has a live TopicSummary"
(spec section 3); with a topic not yet summarized it "fails with a
precondition error, not a partial summary" (spec section 8), leaving the prior
live summary and `ProcessingState.last_error` untouched. `gen` is the external
text-generation capability applied to the live topic summaries. -/
def summarizeUnit (gen : List String → String) (u : UnitData) :
    Option SummError × UnitData :=
  if u.topics.all fun t => t.summary.isSome then
    (none,
      { u with
        unitSummary := some (gen (u.topics.filterMap fun t => t.summary)) })
  else (some .precondition, u)

/-- Modelled from the spec: the five retrieval intents (spec section 4.5). -/
inductive Intent where
  | teach_from_start
  | explain_topic
  | explain_detail
  | revise
  | generate_questions
deriving DecidableEq, Repr

/-- Modelled from the spec: parsing the classification response into one of
the five labels of the closed label set (spec section 4.5). -/
def parseIntentLabel (s : String) : Option Intent :=
  if s = "teach_from_start" then some .teach_from_start
  else if s = "explain_topic" then some .explain_topic
  else if s = "explain_detail" then some .explain_detail
  else if s = "revise" then some .revise
  else if s = "generate_questions" then some .generate_questions
  else none

/-- Modelled from the spec: the IntentClassifier: "if the response cannot be
parsed into one of the five labels, default to `explain_topic` ... rather
than failing the whole request" (spec section 4.5). `resp` is the text
returned by the external classification call. -/
def classifyIntent (resp : String) : Intent :=
  (parseIntentLabel resp).getD .explain_topic

/-- Source kind of a retrieved item, translated from the literal union type of
`SourceReference.source_type` in `frontend/src/types/index.ts`. -/
inductive SourceType where
  | chunk
  | topic_summary
  | unit_summary
deriving DecidableEq, Repr

/-- Source reference returned by chat, translated from `SourceReference` in
`frontend/src/types/index.ts` (`score` is a float there, abstracted as an
integer similarity score here). -/
structure SourceReference where
  source_type : SourceType
  source_id : Nat
  score : Int
  preview : String
deriving DecidableEq, Repr

/-- Modelled from the spec: one ranked retrieval candidate: its provenance
kind and id, similarity score, full source text, and token count (spec
section 4.7). -/
structure RetrievedItem where
  source_type : SourceType
  source_id : Nat
  score : Int
  text : String
  tokens : Nat
deriving DecidableEq, Repr

/-- Modelled from the spec: the source reference for an item actually included
in the context: "kind, provenance id, similarity score, and a short preview of
the source text" (spec section 4.7); the preview is the leading part of the
source text. -/
def mkSource (it : RetrievedItem) : SourceReference :=
  { source_type := it.source_type, source_id := it.source_id,
    score := it.score, preview := it.text.take 100 }

/-- Modelled from the spec: a stored summary or passage row, as retrieved
(already ranked) from the relational store and the vector indexes. -/
structure Row where
  id : Nat
  text : String
  score : Int
  tokens : Nat
deriving DecidableEq, Repr

/-- Tag a retrieved row with its source kind. -/
def toItem (k : SourceType) (r : Row) : RetrievedItem :=
  { source_type := k, source_id := r.id, score := r.score, text := r.text,
    tokens := r.tokens }

/-- Modelled from the spec: the ranked retrieval candidates available to the
orchestrator, one ranked list per level (spec section 4.7). -/
structure Corpus where
  unitSummaries : List Row
  topicSummaries : List Row
  passages : List Row
deriving DecidableEq, Repr

/-- Modelled from the spec: the fixed intent-to-strategy table of spec section
4.7: teach_from_start and revise query unit summaries only (top-1);
explain_topic queries the topic summary plus top-k passages; explain_detail
queries passages only; generate_questions queries topic summaries only. -/
def retrieve (intent : Intent) (c : Corpus) (k : Nat) : List RetrievedItem :=
  match intent with
  | .teach_from_start => ((c.unitSummaries.map (toItem .unit_summary)).take 1)
  | .revise => ((c.unitSummaries.map (toItem .unit_summary)).take 1)
  | .explain_topic =>
      c.topicSummaries.map (toItem .topic_summary) ++
        (c.passages.map (toItem .chunk)).take k
  | .explain_detail => (c.passages.map (toItem .chunk)).take k
  | .generate_questions => c.topicSummaries.map (toItem .topic_summary)

/-- Modelled from the spec: context assembly: walk the ranked items in order
and include each whole item while it still fits the token budget; the first
item that would overflow the budget and everything below it is dropped
(lowest-ranked first), never truncated mid-item (spec section 4.7). -/
def includedItems (budget : Nat) : List RetrievedItem → Nat → List RetrievedItem
  | [], _ => []
  | it :: rest, used =>
    if used + it.tokens ≤ budget then
      it :: includedItems budget rest (used + it.tokens)
    else []

/-- Modelled from the spec: the assembled context is the concatenation of the
full texts of the included items, in ranked order (spec section 4.7). -/
def assembleContext (budget : Nat) (items : List RetrievedItem) :
    String × List RetrievedItem :=
  (String.join ((includedItems budget items 0).map fun it => it.text),
    includedItems budget items 0)

/-- Result of a chat request, mirroring `ChatResponse` of
`frontend/src/types/index.ts` (answer, intent, sources), extended with the
assembled context, which the orchestrator passes to the generation call. -/
structure ChatResult where
  answer : String
  intent : Intent
  sources : List SourceReference
  context : String
deriving Repr

/-- Modelled from the spec: the RetrievalOrchestrator driving one chat
request: classify the query from the external classification response
`classResp`, retrieve by the intent table, assemble a token-bounded context,
issue one generation call `gen`, and return the answer with the source
references of exactly the included items (spec section 4.7). -/
def chat (classResp : String) (gen : String → String) (c : Corpus)
    (budget k : Nat) : ChatResult :=
  let intent := classifyIntent classResp
  let items := retrieve intent c k
  let ctx := (assembleContext budget items).1
  { answer := gen ctx, intent := intent,
    sources := (assembleContext budget items).2.map mkSource, context := ctx }

/-- Ranking order on retrieved items: descending similarity score. -/
def scoreGE (a b : RetrievedItem) : Prop := b.score ≤ a.score

instance : DecidableRel scoreGE := fun a b => by
  unfold scoreGE
  infer_instance

/-- Translated from `Subject` in `frontend/src/types/index.ts`. -/
structure Subject where
  id : Nat
  name : String
  description : Option String
  created_at : String
deriving DecidableEq, Repr

/-- Translated from `UnitState` in `frontend/src/types/index.ts`. -/
structure UnitState where
  status : ProcStatus
  has_files : Bool
  text_extracted : Bool
  chunk_count : Nat
  embeddings_ready : Bool
  last_error : Option String
deriving DecidableEq, Repr

/-- Translated from `Unit` in `frontend/src/types/index.ts`. -/
structure Unit where
  id : Nat
  subject_id : Nat
  title : String
  description : Option String
  created_at : String
  processing_state : Option UnitState
deriving DecidableEq, Repr

/-- Translated from `Topic` in `frontend/src/types/index.ts`. -/
structure Topic where
  id : Nat
  unit_id : Nat
  title : String
  created_at : String
deriving DecidableEq, Repr

/-- Translated from `UnitWithTopics` in `frontend/src/types/index.ts`. -/
structure UnitWithTopics extends Unit where
  topics : List Topic
  expanded : Bool
deriving DecidableEq, Repr

/-- Translated from `SubjectWithUnits` in `frontend/src/types/index.ts`. -/
structure SubjectWithUnits extends Subject where
  units : List UnitWithTopics
  expanded : Bool
deriving DecidableEq, Repr

/-- Message role, from the literal union in `frontend/src/types/index.ts`. -/
inductive Role where
  | user
  | assistant
deriving DecidableEq, Repr

/-- Translated from `Message` in `frontend/src/types/index.ts`; the `id`
(`crypto.randomUUID()`) and `timestamp` (`new Date()`) fields are
nondeterministic environment values and are abstracted away. -/
structure Message where
  role : Role
  content : String
  sources : Option (List SourceReference)
deriving DecidableEq, Repr

/-- Translated from `ActiveContext` in `frontend/src/types/index.ts`. -/
structure ActiveContext where
  subject : Option Subject
  unit : Option Unit
  topic : Option Topic
deriving DecidableEq, Repr

/-- Translated from the state of the `App` component in
`frontend/src/App.tsx`: subjects, active context, per-topic chat histories
(a `Record<number, Message[]>` whose missing keys read as `[]`, modelled as a
total function with default `[]`), and the two loading flags. -/
structure AppState where
  subjects : List SubjectWithUnits
  isLoadingSubjects : Bool
  context : ActiveContext
  chatHistories : Nat → List Message
  isLoadingChat : Bool

/-- Outcome of the awaited `api.sendMessage` call inside `handleSendMessage`:
success carries the response fields the handler reads (`answer`, `sources`);
failure carries the thrown value's message when it is an `Error` instance. -/
inductive ChatOutcome where
  | success (answer : String) (sources : List SourceReference)
  | failure (errMsg : Option String)

/-- Translated from `frontend/src/App.tsx` lines 163-168: the user message
appended to the active topic's history first. -/
def userMessage (text : String) : Message :=
  { role := .user, content := text, sources := none }

/-- Translated from `frontend/src/App.tsx` lines 185-214: the single further
message appended after the request settles — the assistant answer with its
sources on success, an error-text assistant message on failure. -/
def responseMessage : ChatOutcome → Message
  | .success ans srcs =>
      { role := .assistant, content := ans, sources := some srcs }
  | .failure (some m) =>
      { role := .assistant, content := "Error: " ++ m, sources := none }
  | .failure none =>
      { role := .assistant,
        content := "Something went wrong. Please try again.", sources := none }

/-- Translated from `handleSendMessage` in `frontend/src/App.tsx` (lines
159-220): return unchanged unless both an active subject and topic are set;
otherwise append the user message to the active topic's history and then
append exactly one response message (two consecutive functional
`setChatHistories` updates, modelled by their net effect); `setIsLoadingChat`
ends at `false` via the finally block. No other state is written. -/
def handleSendMessage (st : AppState) (text : String) (outcome : ChatOutcome) :
    AppState :=
  match st.context.subject, st.context.topic with
  | some _, some topic =>
      { st with
        chatHistories := fun tid =>
          if tid = topic.id then
            st.chatHistories topic.id ++
              [userMessage text, responseMessage outcome]
          else st.chatHistories tid,
        isLoadingChat := false }
  | _, _ => st

/-- The JSON body of an HTTP response, as far as `apiRequest` in
`frontend/src/api/client.ts` inspects it: its `detail` field when present as a
string, and the rest of the parsed value (abstracted as `payload`). -/
structure JsonBody where
  detail : Option String
  payload : String
deriving DecidableEq, Repr

/-- An HTTP response as observed by the client: `ok`, `status`, and the parsed
JSON body — `none` when the body text does not parse as JSON, in which case
`response.json()` rejects. -/
structure HttpResponse where
  ok : Bool
  status : Nat
  body : Option JsonBody
deriving DecidableEq, Repr

/-- A rejected client request: either a thrown `Error` with its message, or
the rejection of `response.json()` on an ok response with an unparseable
body. -/
inductive ApiFailure where
  | thrown (msg : String)
  | jsonRejection
deriving DecidableEq, Repr

/-- Translated from `apiRequest` in `frontend/src/api/client.ts` (lines
18-41): on a non-ok response, parse the error body (falling back to
`{detail: 'Request failed'}` when it does not parse) and throw an `Error`
whose message is the truthy `detail` or else `HTTP <status>`; on an ok
response, return `response.json()` — which rejects if the body does not
parse. The empty string is the falsy string value of `detail`. -/
def apiRequest (resp : HttpResponse) : Except ApiFailure JsonBody :=
  if resp.ok = false then
    match resp.body with
    | some j =>
        match j.detail with
        | some d =>
            if d = "" then .error (.thrown ("HTTP " ++ toString resp.status))
            else .error (.thrown d)
        | none => .error (.thrown ("HTTP " ++ toString resp.status))
    | none => .error (.thrown "Request failed")
  else
    match resp.body with
    | some j => .ok j
    | none => .error .jsonRejection

/-- Translated from `uploadFile` in `frontend/src/api/client.ts` (lines
123-148): identical response handling to `apiRequest` except that the
fallback error body is `{detail: 'Upload failed'}`. -/
def uploadFile (resp : HttpResponse) : Except ApiFailure JsonBody :=
  if resp.ok = false then
    match resp.body with
    | some j =>
        match j.detail with
        | some d =>
            if d = "" then .error (.thrown ("HTTP " ++ toString resp.status))
            else .error (.thrown d)
        | none => .error (.thrown ("HTTP " ++ toString resp.status))
    | none => .error (.thrown "Upload failed")
  else
    match resp.body with
    | some j => .ok j
    | none => .error .jsonRejection

/-- Concrete summary-index operation sequence used as a witness input. -/
def wOps : List IndexOp :=
  [.add 1 .topic_summary [1, 0], .add 2 .unit_summary [0, 1],
   .add 1 .topic_summary [2, 2], .tombstone 2 .unit_summary]

/-- Concrete chunk configuration used as a witness input. -/
def wCfg : ChunkConfig :=
  { min_tokens := 1, max_tokens := 2, overlap_percent := 0 }

/-- Concrete token sequence used as a witness input. -/
def wTokens : List Token := [⟨false⟩, ⟨false⟩, ⟨false⟩]

/-- The chunks produced from `wTokens` under `wCfg`. -/
def wChunks : List (List Token) := [[⟨false⟩, ⟨false⟩], [⟨false⟩]]

/-- Concrete in-flight processing state used as a witness input. -/
def wProcState : ProcessingState :=
  { status := .processing, has_files := true, passage_count := 3,
    embeddings_ready := false, last_error := none }

/-- Concrete unit with two topics of which only one is summarized, an existing
live unit summary, and an unrelated recorded error, used as a witness input. -/
def wUnitData : UnitData :=
  { topics := [{ id := 1, summary := some "s1" }, { id := 2, summary := none }],
    unitSummary := some "old unit summary",
    procState :=
      { status := .failed, has_files := true, passage_count := 3,
        embeddings_ready := false, last_error := some "earlier error" } }

/-- Concrete ranked corpus used as a witness input. -/
def wCorpus : Corpus :=
  { unitSummaries := [{ id := 10, text := "unit summary", score := 9, tokens := 40 }],
    topicSummaries := [{ id := 20, text := "topic summary", score := 8, tokens := 30 }],
    passages := [{ id := 30, text := "passage", score := 7, tokens := 20 }] }

/-- Concrete active topic used as a witness input. -/
def wTopic : Topic :=
  { id := 7, unit_id := 3, title := "Quick Sort", created_at := "t0" }

/-- Concrete active subject used as a witness input. -/
def wSubject : Subject :=
  { id := 1, name := "Algorithms", description := none, created_at := "t0" }

/-- Concrete app state with an active subject and topic, used as a witness
input. -/
def wAppState : AppState :=
  { subjects := [], isLoadingSubjects := false,
    context := { subject := some wSubject, unit := none, topic := some wTopic },
    chatHistories := fun _ => [], isLoadingChat := false }

/-- Concrete non-ok HTTP response with a JSON error body, used as a witness
input. -/
def wResp404 : HttpResponse :=
  { ok := false, status := 404,
    body := some { detail := some "Not found", payload := "" } }

/-- Concrete ok HTTP response whose body does not parse as JSON, used as a
counterexample input. -/
def wRespOkBad : HttpResponse := { ok := true, status := 200, body := none }

/-! Theorems. -/

/-- Tombstoning by key never changes the provenance kind of an entry. -/
theorem kind_of_mem_tomb {pid : Nat} {kind : ProvKind} {l : List IndexEntry}
    {e : IndexEntry}
    (he : e ∈ l.map fun x =>
      if x.pid = pid ∧ x.kind = kind then { x with live := false } else x) :
    ∃ x ∈ l, e.kind = x.kind := by
  rcases List.mem_map.1 he with ⟨x, hx, rfl⟩
  refine ⟨x, hx, ?_⟩
  by_cases h : x.pid = pid ∧ x.kind = kind <;> simp [h]

/-- Every entry of a state reached by operations whose provenance kinds all
belong to index `ik` has a kind belonging to `ik`. -/
theorem kindsOk_applyOps (ik : IndexKind) :
    ∀ (ops : List IndexOp) (s : VectorIndex),
      (∀ e ∈ s.entries, kindAllowed ik e.kind = true) →
      (∀ op ∈ ops, kindAllowed ik op.kind = true) →
      ∀ e ∈ (applyOps ops s).entries, kindAllowed ik e.kind = true
  | [], _, hs, _ => hs
  | op :: ops, s, hs, hops => by
      rw [applyOps]
      refine kindsOk_applyOps ik ops (applyOp op s) ?_
        (fun o ho => hops o (List.mem_cons_of_mem _ ho))
      intro e he
      cases op with
      | add pid kind vec =>
          rw [applyOp, VectorIndex.add] at he
          rcases List.mem_append.1 he with hl | hr
          · rcases kind_of_mem_tomb hl with ⟨x, hx, hk⟩
            rw [hk]
            exact hs x hx
          · rw [List.mem_singleton.1 hr]
            exact hops _ (List.mem_cons_self _ _)
      | tombstone pid kind =>
          rw [applyOp, VectorIndex.tombstone] at he
          rcases kind_of_mem_tomb he with ⟨x, hx, hk⟩
          rw [hk]
          exact hs x hx

/-- Claim C1: for every sequence of add and tombstoning operations and every
query vector and `k`, `VectorIndex.search` returns only live entries of that
same index — never a tombstoned entry and never an entry whose provenance kind
belongs to the other index — and the returned entries are ordered by
descending similarity with ties broken by most-recent insertion order. -/
theorem search_only_live_same_index_ranked (ik : IndexKind)
    (ops : List IndexOp) (qv : List Int) (k : Nat)
    (hops : ∀ op ∈ ops, kindAllowed ik op.kind = true) :
    (∀ e ∈ (applyOps ops emptyIndex).search qv k,
        e ∈ (applyOps ops emptyIndex).entries ∧ e.live = true ∧
          kindAllowed ik e.kind = true) ∧
    List.Pairwise (rankLE qv) ((applyOps ops emptyIndex).search qv k) := by
  constructor
  · intro e he
    have h1 : e ∈ List.insertionSort (rankLE qv)
        ((applyOps ops emptyIndex).entries.filter fun e => e.live) :=
      (List.take_sublist k _).subset he
    have h2 := List.mem_filter.1 ((List.mem_insertionSort _).1 h1)
    exact ⟨h2.1, h2.2,
      kindsOk_applyOps ik ops emptyIndex (by simp [emptyIndex]) hops e h2.1⟩
  · exact List.Pairwise.sublist (List.take_sublist k _)
      (List.sorted_insertionSort (rankLE qv) _)

/-- Witness: the claim C1 theorem applied to the concrete summary-index
operation sequence `wOps`. -/
theorem search_only_live_same_index_ranked_witness :
    (∀ op ∈ wOps, kindAllowed IndexKind.summaryIndex op.kind = true) ∧
    ((∀ e ∈ (applyOps wOps emptyIndex).search [1, 1] 5,
        e ∈ (applyOps wOps emptyIndex).entries ∧ e.live = true ∧
          kindAllowed IndexKind.summaryIndex e.kind = true) ∧
      List.Pairwise (rankLE [1, 1]) ((applyOps wOps emptyIndex).search [1, 1] 5)) :=
  ⟨by decide,
    search_only_live_same_index_ranked IndexKind.summaryIndex wOps [1, 1] 5
      (by decide)⟩

/-- Claim C2: `VectorIndex.add` has upsert semantics: after adding
`(pid, kind, vec)` to any index state, exactly one live entry for that key
remains, and any live entry for that key is the newly added one (the most
recent insertion, carrying the new vector); earlier entries for the key are
tombstoned, so live entries are never duplicated for a key. -/
theorem add_upsert (s : VectorIndex) (pid : Nat) (kind : ProvKind)
    (vec : List Int) :
    ((s.add pid kind vec).entries.filter fun e =>
        e.live && decide (e.pid = pid) && decide (e.kind = kind)).length = 1 ∧
    ∀ e ∈ (s.add pid kind vec).entries,
      e.live = true → e.pid = pid → e.kind = kind →
      e.seq = s.nextSeq ∧ e.vec = vec := by
  constructor
  · rw [VectorIndex.add, List.filter_append]
    have h1 : ((s.entries.map fun e =>
        if e.pid = pid ∧ e.kind = kind then { e with live := false } else e).filter
          fun e => e.live && decide (e.pid = pid) && decide (e.kind = kind)) = [] := by
      rw [List.filter_eq_nil_iff]
      intro a ha
      rcases List.mem_map.1 ha with ⟨x, _, rfl⟩
      by_cases h : x.pid = pid ∧ x.kind = kind
      · simp [h]
      · rw [if_neg h]
        simp only [Bool.and_eq_true, decide_eq_true_eq]
        intro hcon
        exact h ⟨hcon.1.2, hcon.2⟩
    rw [h1]
    simp
  · intro e he hlive hpid hkind
    rw [VectorIndex.add] at he
    rcases List.mem_append.1 he with hl | hr
    · rcases List.mem_map.1 hl with ⟨x, hx, rfl⟩
      by_cases h : x.pid = pid ∧ x.kind = kind
      · rw [if_pos h] at hlive
        simp at hlive
      · rw [if_neg h] at hpid hkind
        exact absurd ⟨hpid, hkind⟩ h
    · rw [List.mem_singleton.1 hr]
      exact ⟨rfl, rfl⟩

/-- A chunk scan that starts at `n` already-consumed tokens with `n` below the
maximum never takes the total past `max_tokens`. -/
theorem takeChunkAux_le_max (cfg : ChunkConfig) :
    ∀ (ts : List Token) (n : Nat), n < cfg.max_tokens →
      (takeChunkAux cfg ts n).length + n ≤ cfg.max_tokens
  | [], n, h => by
      rw [takeChunkAux]
      simp only [List.length_nil]
      omega
  | t :: ts, n, h => by
      rw [takeChunkAux]
      by_cases hmax : cfg.max_tokens ≤ n + 1
      · rw [if_pos hmax]
        simp only [List.length_singleton]
        omega
      · rw [if_neg hmax]
        by_cases hbnd : cfg.min_tokens ≤ n + 1 ∧ t.boundary = true
        · rw [if_pos hbnd]
          simp only [List.length_singleton]
          omega
        · rw [if_neg hbnd]
          have ih := takeChunkAux_le_max cfg ts (n + 1) (by omega)
          simp only [List.length_cons]
          omega

/-- A chunk scan never consumes more tokens than remain. -/
theorem takeChunkAux_le_len (cfg : ChunkConfig) :
    ∀ (ts : List Token) (n : Nat), (takeChunkAux cfg ts n).length ≤ ts.length
  | [], _ => by simp [takeChunkAux]
  | t :: ts, n => by
      rw [takeChunkAux]
      by_cases hmax : cfg.max_tokens ≤ n + 1
      · rw [if_pos hmax]
        simp
      · rw [if_neg hmax]
        by_cases hbnd : cfg.min_tokens ≤ n + 1 ∧ t.boundary = true
        · rw [if_pos hbnd]
          simp
        · rw [if_neg hbnd]
          have ih := takeChunkAux_le_len cfg ts (n + 1)
          simp only [List.length_cons]
          omega

/-- A chunk scan that closes before exhausting the text closed at the maximum
or at a natural boundary at or above the minimum, so it reaches
`min_tokens`. -/
theorem takeChunkAux_min (cfg : ChunkConfig)
    (hmm : cfg.min_tokens ≤ cfg.max_tokens) :
    ∀ (ts : List Token) (n : Nat),
      (takeChunkAux cfg ts n).length < ts.length →
      cfg.min_tokens ≤ (takeChunkAux cfg ts n).length + n
  | [], n, h => by simp [takeChunkAux] at h
  | t :: ts, n, h => by
      rw [takeChunkAux] at h ⊢
      by_cases hmax : cfg.max_tokens ≤ n + 1
      · rw [if_pos hmax]
        simp only [List.length_singleton]
        omega
      · rw [if_neg hmax] at h ⊢
        by_cases hbnd : cfg.min_tokens ≤ n + 1 ∧ t.boundary = true
        · rw [if_pos hbnd]
          have hb := hbnd.1
          simp only [List.length_singleton]
          omega
        · rw [if_neg hbnd] at h ⊢
          simp only [List.length_cons] at h ⊢
          have ih := takeChunkAux_min cfg hmm ts (n + 1) (by omega)
          omega

/-- Every chunk the chunking loop emits respects `max_tokens`. -/
theorem chunkerAux_le_max (cfg : ChunkConfig) (hmax : 0 < cfg.max_tokens) :
    ∀ (fuel : Nat) (ts : List Token), ∀ c ∈ chunkerAux cfg fuel ts,
      c.length ≤ cfg.max_tokens
  | 0, ts => by simp [chunkerAux]
  | _ + 1, [] => by simp [chunkerAux]
  | fuel + 1, t :: rest => by
      rw [chunkerAux]
      have hc := takeChunkAux_le_max cfg (t :: rest) 0 hmax
      split
      · intro c hc'
        rw [List.mem_singleton.1 hc']
        omega
      · intro c hc'
        rcases List.mem_cons.1 hc' with rfl | hmem
        · omega
        · exact chunkerAux_le_max cfg hmax fuel _ c hmem

/-- Every chunk the chunking loop emits, except possibly the final one,
reaches `min_tokens`. -/
theorem chunkerAux_min (cfg : ChunkConfig)
    (hmm : cfg.min_tokens ≤ cfg.max_tokens) :
    ∀ (fuel : Nat) (ts : List Token), ∀ c ∈ (chunkerAux cfg fuel ts).dropLast,
      cfg.min_tokens ≤ c.length
  | 0, ts => by simp [chunkerAux]
  | _ + 1, [] => by simp [chunkerAux]
  | fuel + 1, t :: rest => by
      rw [chunkerAux]
      split
      · simp
      · next hne =>
        intro c hc
        have hlt : (takeChunkAux cfg (t :: rest) 0).length < (t :: rest).length := by
          have := takeChunkAux_le_len cfg (t :: rest) 0
          simp only [List.length_cons] at this ⊢
          omega
        have hmin := takeChunkAux_min cfg hmm (t :: rest) 0 hlt
        cases hrec : chunkerAux cfg fuel
            (List.drop
              ((takeChunkAux cfg (t :: rest) 0).length -
                (takeChunkAux cfg (t :: rest) 0).length * cfg.overlap_percent / 100)
              (t :: rest)) with
        | nil =>
            rw [hrec] at hc
            simp at hc
        | cons r rs =>
            rw [hrec, List.dropLast_cons_of_ne_nil (by simp)] at hc
            rcases List.mem_cons.1 hc with rfl | hmem
            · omega
            · have ih := chunkerAux_min cfg hmm fuel
                (List.drop
                  ((takeChunkAux cfg (t :: rest) 0).length -
                    (takeChunkAux cfg (t :: rest) 0).length * cfg.overlap_percent / 100)
                  (t :: rest)) c
              rw [hrec] at ih
              exact ih hmem

/-- Claim C3: for every text and every chunk configuration with
`min_tokens ≤ max_tokens`, the Chunker is deterministic (identical text and
config yield identical chunk boundaries) and, whenever it returns a chunk
sequence, every passage's token count is at most `max_tokens` and every
passage except possibly the final one has token count at least
`min_tokens`. -/
theorem chunker_deterministic_and_bounded (cfg : ChunkConfig)
    (ts : List Token) (hmm : cfg.min_tokens ≤ cfg.max_tokens)
    (cs : List (List Token)) (hok : chunkText cfg ts = Except.ok cs) :
    (∀ cfg' ts', cfg = cfg' → ts = ts' → chunkText cfg' ts' = Except.ok cs) ∧
    (∀ c ∈ cs, c.length ≤ cfg.max_tokens) ∧
    (∀ c ∈ cs.dropLast, cfg.min_tokens ≤ c.length) := by
  have hval : validConfig cfg = true := by
    by_contra h
    rw [chunkText, if_neg (by simpa using h)] at hok
    exact Except.noConfusion hok
  have hmax : 0 < cfg.max_tokens := by
    rw [validConfig] at hval
    simp only [Bool.and_eq_true, decide_eq_true_eq] at hval
    omega
  have hcs : cs = chunkerAux cfg ts.length ts := by
    rw [chunkText, if_pos hval] at hok
    injection hok with h
    exact h.symm
  refine ⟨fun cfg' ts' hc ht => hc ▸ ht ▸ hok, ?_, ?_⟩
  · rw [hcs]
    exact chunkerAux_le_max cfg hmax ts.length ts
  · rw [hcs]
    exact chunkerAux_min cfg hmm ts.length ts

/-- Witness: the claim C3 theorem applied to the concrete configuration
`wCfg` and token sequence `wTokens`. -/
theorem chunker_deterministic_and_bounded_witness :
    wCfg.min_tokens ≤ wCfg.max_tokens ∧
    chunkText wCfg wTokens = Except.ok wChunks ∧
    ((∀ cfg' ts', wCfg = cfg' → wTokens = ts' →
        chunkText cfg' ts' = Except.ok wChunks) ∧
      (∀ c ∈ wChunks, c.length ≤ wCfg.max_tokens) ∧
      (∀ c ∈ wChunks.dropLast, wCfg.min_tokens ≤ c.length)) :=
  ⟨by decide, by rfl,
    chunker_deterministic_and_bounded wCfg wTokens (by decide) wChunks
      (by rfl)⟩

/-- Claim C4: for every unit whose ProcessingState is `processing`, a further
attempt to start processing is rejected immediately with
`ConcurrencyConflict` and leaves the ProcessingState unchanged, so at most
one processing run per unit is in flight. -/
theorem startProcessing_conflict (s : ProcessingState)
    (h : s.status = ProcStatus.processing) :
    startProcessing s = (some ProcError.concurrencyConflict, s) := by
  rw [startProcessing, if_pos h]

/-- Witness: the claim C4 theorem applied to the concrete in-flight state
`wProcState`. -/
theorem startProcessing_conflict_witness :
    wProcState.status = ProcStatus.processing ∧
    startProcessing wProcState = (some ProcError.concurrencyConflict, wProcState) :=
  ⟨rfl, startProcessing_conflict wProcState rfl⟩

/-- The included items form a leading segment of the ranked item list. -/
theorem includedItems_leading (budget : Nat) :
    ∀ (items : List RetrievedItem) (used : Nat),
      includedItems budget items used <+: items
  | [], _ => by
      rw [includedItems]
  | it :: rest, used => by
      rw [includedItems]
      by_cases h : used + it.tokens ≤ budget
      · rw [if_pos h, List.cons_prefix_cons]
        exact ⟨rfl, includedItems_leading budget rest (used + it.tokens)⟩
      · rw [if_neg h]
        exact List.nil_prefix

/-- The included items never take the running token total past the budget. -/
theorem includedItems_tokens (budget : Nat) :
    ∀ (items : List RetrievedItem) (used : Nat), used ≤ budget →
      used + List.sum ((includedItems budget items used).map fun it => it.tokens) ≤
        budget
  | [], used, h => by
      rw [includedItems]
      simpa using h
  | it :: rest, used, h => by
      rw [includedItems]
      by_cases hfit : used + it.tokens ≤ budget
      · rw [if_pos hfit]
        have ih := includedItems_tokens budget rest (used + it.tokens) hfit
        simp only [List.map_cons, List.sum_cons]
        omega
      · rw [if_neg hfit]
        simpa using h

/-- Claim C5: for every ranked retrieval result and configured token budget,
context assembly concatenates items in descending similarity order, drops
whole items that would overflow the budget (lowest-ranked first) without ever
truncating an item mid-item, and the sources list returned by chat contains
exactly the items actually included in the context — each with kind,
provenance id, score, and preview — and never a reference to a dropped
item. -/
theorem chat_context_assembly (classResp : String) (gen : String → String)
    (c : Corpus) (budget k : Nat)
    (hsorted : List.Pairwise scoreGE (retrieve (classifyIntent classResp) c k)) :
    includedItems budget (retrieve (classifyIntent classResp) c k) 0 <+:
        retrieve (classifyIntent classResp) c k ∧
    List.Pairwise scoreGE
        (includedItems budget (retrieve (classifyIntent classResp) c k) 0) ∧
    List.sum ((includedItems budget (retrieve (classifyIntent classResp) c k) 0).map
        fun it => it.tokens) ≤ budget ∧
    (chat classResp gen c budget k).context =
      String.join
        ((includedItems budget (retrieve (classifyIntent classResp) c k) 0).map
          fun it => it.text) ∧
    (chat classResp gen c budget k).sources =
      (includedItems budget (retrieve (classifyIntent classResp) c k) 0).map
        mkSource ∧
    ∀ r ∈ (chat classResp gen c budget k).sources,
      ∃ it ∈ includedItems budget (retrieve (classifyIntent classResp) c k) 0,
        r = mkSource it := by
  refine ⟨includedItems_leading budget _ 0, ?_, ?_, rfl, rfl, ?_⟩
  · exact List.Pairwise.sublist
      (List.IsPrefix.sublist (includedItems_leading budget _ 0)) hsorted
  · simpa using includedItems_tokens budget
      (retrieve (classifyIntent classResp) c k) 0 (Nat.zero_le budget)
  · intro r hr
    have : r ∈ (includedItems budget (retrieve (classifyIntent classResp) c k) 0).map
        mkSource := hr
    rcases List.mem_map.1 this with ⟨it, hit, rfl⟩
    exact ⟨it, hit, rfl⟩

/-- Witness: the claim C5 theorem applied to the concrete corpus `wCorpus`
with an `explain_topic` classification. -/
theorem chat_context_assembly_witness :
    List.Pairwise scoreGE (retrieve (classifyIntent "explain_topic") wCorpus 1) ∧
    (includedItems 100 (retrieve (classifyIntent "explain_topic") wCorpus 1) 0 <+:
        retrieve (classifyIntent "explain_topic") wCorpus 1 ∧
      List.Pairwise scoreGE
          (includedItems 100 (retrieve (classifyIntent "explain_topic") wCorpus 1) 0) ∧
      List.sum
          ((includedItems 100 (retrieve (classifyIntent "explain_topic") wCorpus 1) 0).map
            fun it => it.tokens) ≤ 100 ∧
      (chat "explain_topic" (fun s => s) wCorpus 100 1).context =
        String.join
          ((includedItems 100 (retrieve (classifyIntent "explain_topic") wCorpus 1) 0).map
            fun it => it.text) ∧
      (chat "explain_topic" (fun s => s) wCorpus 100 1).sources =
        (includedItems 100 (retrieve (classifyIntent "explain_topic") wCorpus 1) 0).map
          mkSource ∧
      ∀ r ∈ (chat "explain_topic" (fun s => s) wCorpus 100 1).sources,
        ∃ it ∈ includedItems 100 (retrieve (classifyIntent "explain_topic") wCorpus 1) 0,
          r = mkSource it) :=
  ⟨by decide,
    chat_context_assembly "explain_topic" (fun s => s) wCorpus 100 1 (by decide)⟩

/-- Claim C6: for every query classified as `teach_from_start`, the
orchestrator queries the unit-summary level only, and the chat response's
sources list contains only unit-summary provenance — zero passage-level
(chunk) sources and zero topic-summary sources. -/
theorem teach_from_start_unit_summary_sources (classResp : String)
    (gen : String → String) (c : Corpus) (budget k : Nat)
    (h : classifyIntent classResp = Intent.teach_from_start) :
    (∀ it ∈ retrieve (classifyIntent classResp) c k,
        it.source_type = SourceType.unit_summary) ∧
    ∀ r ∈ (chat classResp gen c budget k).sources,
      r.source_type = SourceType.unit_summary := by
  have hitems : ∀ it ∈ retrieve (classifyIntent classResp) c k,
      it.source_type = SourceType.unit_summary := by
    rw [h]
    intro it hit
    rw [retrieve] at hit
    have hmem := (List.take_sublist 1 _).subset hit
    rcases List.mem_map.1 hmem with ⟨r, _, rfl⟩
    rfl
  refine ⟨hitems, ?_⟩
  intro r hr
  have hr' : r ∈ (includedItems budget (retrieve (classifyIntent classResp) c k) 0).map
      mkSource := hr
  rcases List.mem_map.1 hr' with ⟨it, hit, rfl⟩
  have hmem : it ∈ retrieve (classifyIntent classResp) c k :=
    (List.IsPrefix.sublist (includedItems_leading budget _ 0)).subset hit
  rw [mkSource]
  exact hitems it hmem

/-- Witness: the claim C6 theorem applied to the concrete corpus `wCorpus`
with the literal `teach_from_start` classification response. -/
theorem teach_from_start_unit_summary_sources_witness :
    classifyIntent "teach_from_start" = Intent.teach_from_start ∧
    ((∀ it ∈ retrieve (classifyIntent "teach_from_start") wCorpus 5,
        it.source_type = SourceType.unit_summary) ∧
      ∀ r ∈ (chat "teach_from_start" (fun s => s) wCorpus 100 5).sources,
        r.source_type = SourceType.unit_summary) :=
  ⟨by decide,
    teach_from_start_unit_summary_sources "teach_from_start" (fun s => s)
      wCorpus 100 5 (by decide)⟩

/-- Claim C7: unit summarization requires every topic in the unit to have a
live TopicSummary: invoked with at least one topic not yet summarized it
fails with a precondition error producing no partial UnitSummary, and this
failed attempt leaves both the prior live summary (if any) and
`ProcessingState.last_error` unchanged. -/
theorem summarizeUnit_precondition (gen : List String → String) (u : UnitData)
    (h : ∃ t ∈ u.topics, t.summary = none) :
    (summarizeUnit gen u).1 = some SummError.precondition ∧
    (summarizeUnit gen u).2 = u ∧
    (summarizeUnit gen u).2.unitSummary = u.unitSummary ∧
    (summarizeUnit gen u).2.procState.last_error = u.procState.last_error := by
  rcases h with ⟨t, ht, hnone⟩
  have hall : (u.topics.all fun t => t.summary.isSome) = false := by
    rw [List.all_eq_false]
    exact ⟨t, ht, by rw [hnone]; simp⟩
  rw [summarizeUnit, if_neg (by rw [hall]; simp)]
  exact ⟨rfl, rfl, rfl, rfl⟩

/-- Witness: the claim C7 theorem applied to the concrete unit `wUnitData`
(two topics, one unsummarized, a live unit summary and a recorded error). -/
theorem summarizeUnit_precondition_witness :
    (∃ t ∈ wUnitData.topics, t.summary = none) ∧
    ((summarizeUnit (fun _ => "new") wUnitData).1 = some SummError.precondition ∧
      (summarizeUnit (fun _ => "new") wUnitData).2 = wUnitData ∧
      (summarizeUnit (fun _ => "new") wUnitData).2.unitSummary =
        wUnitData.unitSummary ∧
      (summarizeUnit (fun _ => "new") wUnitData).2.procState.last_error =
        wUnitData.procState.last_error) :=
  ⟨by decide,
    summarizeUnit_precondition (fun _ => "new") wUnitData (by decide)⟩

/-- Claim C8: for every query text the IntentClassifier returns exactly one
of the five labels, and when the classification response cannot be parsed
into one of the five labels it returns `explain_topic` rather than failing
the request. -/
theorem classifyIntent_total_and_default (resp : String) :
    (classifyIntent resp = Intent.teach_from_start ∨
      classifyIntent resp = Intent.explain_topic ∨
      classifyIntent resp = Intent.explain_detail ∨
      classifyIntent resp = Intent.revise ∨
      classifyIntent resp = Intent.generate_questions) ∧
    (parseIntentLabel resp = none →
      classifyIntent resp = Intent.explain_topic) := by
  constructor
  · rcases hI : classifyIntent resp <;> simp
  · intro h
    rw [classifyIntent, h]
    rfl

/-- Witness: the claim C8 theorem applied to a response text that is not one
of the five labels. -/
theorem classifyIntent_total_and_default_witness :
    parseIntentLabel "tell me a story" = none ∧
    classifyIntent "tell me a story" = Intent.explain_topic :=
  ⟨by decide,
    (classifyIntent_total_and_default "tell me a story").2 (by decide)⟩

/-- Claim C9: sending a chat message while topic `t` is the active context
modifies only `chatHistories[t]`: it appends the user message, then appends
exactly one further message (the assistant answer on success, or an
error-text assistant message on failure); the chat histories of every other
topic, and the subjects and navigation state, are unchanged by the
operation. -/
theorem handleSendMessage_frame (st : AppState) (text : String)
    (outcome : ChatOutcome) (sub : Subject) (topic : Topic)
    (hs : st.context.subject = some sub) (ht : st.context.topic = some topic) :
    (handleSendMessage st text outcome).chatHistories topic.id =
        st.chatHistories topic.id ++
          [userMessage text, responseMessage outcome] ∧
    (userMessage text).role = Role.user ∧
    (responseMessage outcome).role = Role.assistant ∧
    (∀ tid, tid ≠ topic.id →
        (handleSendMessage st text outcome).chatHistories tid =
          st.chatHistories tid) ∧
    (handleSendMessage st text outcome).subjects = st.subjects ∧
    (handleSendMessage st text outcome).context = st.context := by
  rw [handleSendMessage, hs, ht]
  refine ⟨by simp, rfl, ?_, ?_, rfl, rfl⟩
  · cases outcome with
    | success a srcs => rfl
    | failure m => cases m <;> rfl
  · intro tid htid
    simp [htid]

/-- Witness: the claim C9 theorem applied to the concrete app state
`wAppState` with a successful chat response. -/
theorem handleSendMessage_frame_witness :
    wAppState.context.subject = some wSubject ∧
    wAppState.context.topic = some wTopic ∧
    ((handleSendMessage wAppState "hello" (ChatOutcome.success "answer" [])).chatHistories
          wTopic.id =
        wAppState.chatHistories wTopic.id ++
          [userMessage "hello", responseMessage (ChatOutcome.success "answer" [])] ∧
      (userMessage "hello").role = Role.user ∧
      (responseMessage (ChatOutcome.success "answer" [])).role = Role.assistant ∧
      (∀ tid, tid ≠ wTopic.id →
          (handleSendMessage wAppState "hello"
                (ChatOutcome.success "answer" [])).chatHistories tid =
            wAppState.chatHistories tid) ∧
      (handleSendMessage wAppState "hello" (ChatOutcome.success "answer" [])).subjects =
        wAppState.subjects ∧
      (handleSendMessage wAppState "hello" (ChatOutcome.success "answer" [])).context =
        wAppState.context) :=
  ⟨rfl, rfl,
    handleSendMessage_frame wAppState "hello" (ChatOutcome.success "answer" [])
      wSubject wTopic rfl rfl⟩

/-- Claim C10 counterexample: an ok HTTP response whose body does not parse as
JSON does not resolve with a parsed JSON body — `apiRequest` rejects with the
`response.json()` parse rejection — so "resolves with the parsed JSON body if
and only if the HTTP response is ok" fails at this input. -/
theorem apiRequest_ok_unparseable_rejects :
    wRespOkBad.ok = true ∧
    apiRequest wRespOkBad = Except.error ApiFailure.jsonRejection :=
  ⟨rfl, rfl⟩

/-- Claim C10 (amended): `apiRequest` (and `uploadFile`) resolves with the
parsed JSON body if and only if the HTTP response is ok and its body parses
as JSON (an ok response with an unparseable body rejects with the JSON parse
rejection instead of resolving); for every non-ok response it throws an
`Error` whose message is the server's `detail` field when the error body
parses as JSON with a truthy detail, and otherwise `HTTP <status>` (or the
literal fallback detail when the error body is unparseable), never returning
a value to the caller. -/
theorem apiRequest_uploadFile_error_contract (resp : HttpResponse) :
    (∀ j : JsonBody,
        (apiRequest resp = Except.ok j ↔ resp.ok = true ∧ resp.body = some j)) ∧
    (∀ j : JsonBody,
        (uploadFile resp = Except.ok j ↔ resp.ok = true ∧ resp.body = some j)) ∧
    (∀ j d, resp.ok = false → resp.body = some j → j.detail = some d → d ≠ "" →
        apiRequest resp = Except.error (ApiFailure.thrown d) ∧
        uploadFile resp = Except.error (ApiFailure.thrown d)) ∧
    (∀ j, resp.ok = false → resp.body = some j →
        (j.detail = none ∨ j.detail = some "") →
        apiRequest resp =
          Except.error (ApiFailure.thrown ("HTTP " ++ toString resp.status)) ∧
        uploadFile resp =
          Except.error (ApiFailure.thrown ("HTTP " ++ toString resp.status))) ∧
    (resp.ok = false → resp.body = none →
        apiRequest resp = Except.error (ApiFailure.thrown "Request failed") ∧
        uploadFile resp = Except.error (ApiFailure.thrown "Upload failed")) := by
  obtain ⟨ok, status, body⟩ := resp
  refine ⟨?_, ?_, ?_, ?_, ?_⟩
  · intro j
    cases ok <;> rcases body with _ | ⟨j'⟩
    · simp [apiRequest]
    · rcases hd : j'.detail with _ | d
      · simp [apiRequest, hd]
      · by_cases he : d = "" <;> simp [apiRequest, hd, he]
    · simp [apiRequest]
    · simp [apiRequest]
  · intro j
    cases ok <;> rcases body with _ | ⟨j'⟩
    · simp [uploadFile]
    · rcases hd : j'.detail with _ | d
      · simp [uploadFile, hd]
      · by_cases he : d = "" <;> simp [uploadFile, hd, he]
    · simp [uploadFile]
    · simp [uploadFile]
  · intro j d hok hbody hdet hne
    subst hok
    subst hbody
    rw [apiRequest, uploadFile]
    simp [hdet, hne]
  · intro j hok hbody hdet
    subst hok
    subst hbody
    rcases hdet with h | h <;>
      · rw [apiRequest, uploadFile]
        simp [h]
  · intro hok hbody
    subst hok
    subst hbody
    exact ⟨rfl, rfl⟩

/-- Witness: the claim C10 amended theorem applied to the concrete non-ok
response `wResp404` carrying a JSON error body with detail. -/
theorem apiRequest_uploadFile_error_contract_witness :
    wResp404.ok = false ∧
    wResp404.body = some { detail := some "Not found", payload := "" } ∧
    (apiRequest wResp404 = Except.error (ApiFailure.thrown "Not found") ∧
      uploadFile wResp404 = Except.error (ApiFailure.thrown "Not found")) :=
  ⟨rfl, rfl,
    (apiRequest_uploadFile_error_contract wResp404).2.2.1
      { detail := some "Not found", payload := "" } "Not found" rfl rfl rfl
      (by decide)⟩

end EduRag
